import Mathlib

/-!
# Marketplace backend — verification of the specified behaviour

A shallow embedding, in Lean 4, of the data model and the operations of a
Django/DRF marketplace backend (apps `auth_app` and `marketplace_app`):
offers with three pricing tiers (`basic`/`standard`/`premium`), orders,
reviews, registration, and the aggregate/count endpoints.

Conventions of the embedding:
* Database tables are Lean lists of rows; autoincrement primary keys are a
  `Nat` counter carried in the store.
* `DecimalField` prices are modelled as `ℚ`, `PositiveIntegerField`s as `ℕ`.
* A serializer/validator that raises `ValidationError` is a function into
  `Except String _`; the raised message is the `String`.
* Each definition mirrors one Python function or method and is named after
  it; the file/class it comes from is given in its doc comment.
-/

namespace Marketplace

/-- One `OfferDetail` row (`marketplace_app/models.py`, class `OfferDetail`):
a pricing tier of an offer.  The `offer` foreign key is kept outside the
structure (as the first component of the `(offer_id, row)` pairs in the
store), matching the `related_name='details'` reverse accessor. -/
structure OfferDetailRow where
  title : String
  revisions : Nat
  delivery_time_in_days : Nat
  price : ℚ
  features : List String
  offer_type : String
deriving DecidableEq, Inhabited

/-- Scalar fields of an `Offer` row (`marketplace_app/models.py`, class
`Offer`) besides the owner foreign key and the timestamps.  `image` is a
nullable file reference, modelled as an optional name. -/
structure OfferFields where
  title : String
  image : Option String
  description : String
deriving DecidableEq

/-- The relational store as far as the catalog component sees it:
`offers` holds `(id, owner_id, fields)` rows, `details` holds
`(offer_id, row)` rows, and `nextOfferId` is the autoincrement counter of
the `Offer` table. -/
structure DB where
  nextOfferId : Nat
  offers : List (Nat × Nat × OfferFields)
  details : List (Nat × OfferDetailRow)
deriving DecidableEq

/-- The reverse accessor `offer.details.all()`: all `OfferDetail` rows whose
foreign key is `oid`, in insertion order. -/
def DB.detailsOf (db : DB) (oid : Nat) : List OfferDetailRow :=
  (db.details.filter (fun p => p.1 == oid)).map (fun p => p.2)

/-- Python's `min` over a non-empty sequence (and SQL's `MIN` aggregate over
a group): `none` on the empty list, otherwise the least element. -/
def pymin {α : Type} [Min α] : List α → Option α
  | [] => none
  | x :: xs => some (xs.foldl min x)

/-- `Offer.min_price` (`marketplace_app/models.py`): `min(detail.price for
detail in details)` when `self.details.all()` is non-empty, else `None`. -/
def min_price (details : List OfferDetailRow) : Option ℚ :=
  pymin (details.map (fun d => d.price))

/-- `Offer.min_delivery_time` (`marketplace_app/models.py`):
`min(detail.delivery_time_in_days for detail in details)` when the details
queryset is non-empty, else `None`. -/
def min_delivery_time (details : List OfferDetailRow) : Option Nat :=
  pymin (details.map (fun d => d.delivery_time_in_days))

/-- The `required_types` set literal `{'basic', 'standard', 'premium'}` of
`OfferSerializer.validate_details` (`marketplace_app/api/serializers.py`). -/
def required_types : List String := ["basic", "standard", "premium"]

/-- `set(offer_types) == required_types`: the two finite sets have the same
elements (each required type occurs among `offer_types` and conversely). -/
def sameTypeSet (offer_types : List String) : Bool :=
  required_types.all (fun r => offer_types.contains r) &&
    offer_types.all (fun t => required_types.contains t)

/-- `OfferSerializer.validate_details` (`marketplace_app/api/serializers.py`):
when the serializer is not partial, the `details` list must contain exactly
3 entries and their `offer_type` set must be exactly
`{'basic','standard','premium'}`; for partial serializers both checks are
skipped.  Polymorphic in the entry type (the Python code is duck-typed and
reads only `len(value)` and each entry's `offer_type`). -/
def validate_details {α : Type} (partialFlag : Bool) (offerTypeOf : α → String)
    (value : List α) : Except String (List α) :=
  if !partialFlag then
    if value.length ≠ 3 then
      .error "Ein Offer muss genau 3 Details enthalten (basic, standard, premium)."
    else if !sameTypeSet (value.map offerTypeOf) then
      .error "Die Details müssen die Typen basic, standard und premium enthalten."
    else
      .ok value
  else
    .ok value

/-- Outcome of `OfferSerializer.create` combined with the storage layer:
either the serializer rejected the payload (`validationError`), or one of
the `OfferDetail.objects.create` statements failed after earlier statements
had already been committed (`persistError`), or everything was persisted
(`created oid`). -/
inductive CreateOutcome
  | validationError (msg : String)
  | persistError
  | created (oid : Nat)
deriving DecidableEq

/-- The loop `for detail_data in details_data: OfferDetail.objects.create(...)`
of `OfferSerializer.create`, under autocommit (the source wraps the writes in
no `transaction.atomic` block): each successful insert is committed at once,
and a failing insert — `failsAt k` says whether the `k`-th insert fails —
aborts the loop leaving every earlier commit in place. -/
def persist_details (oid : Nat) (failsAt : Nat → Bool) :
    DB → Nat → List OfferDetailRow → DB × Bool
  | db, _, [] => (db, true)
  | db, k, d :: rest =>
    if failsAt k then (db, false)
    else persist_details oid failsAt
      { db with details := db.details ++ [(oid, d)] } (k + 1) rest

/-- `OfferSerializer.create` for a non-partial request, preceded by its
`validate_details` run and with `owner` forced to the requesting user
(`OfferViewSet.perform_create`): validate, insert the `Offer` row, then
insert the detail rows one by one. -/
def offer_create (db : DB) (owner : Nat) (f : OfferFields)
    (ds : List OfferDetailRow) (failsAt : Nat → Bool) : DB × CreateOutcome :=
  match validate_details false (fun d => d.offer_type) ds with
  | .error msg => (db, .validationError msg)
  | .ok ds =>
    let oid := db.nextOfferId
    let db1 : DB := { db with
      nextOfferId := oid + 1
      offers := db.offers ++ [(oid, owner, f)] }
    match persist_details oid failsAt db1 0 ds with
    | (db2, true) => (db2, .created oid)
    | (db2, false) => (db2, .persistError)

/-! ## Basic facts about `pymin` -/

theorem foldl_min_spec {α : Type} [LinearOrder α] (xs : List α) (x : α) :
    (xs.foldl min x = x ∨ xs.foldl min x ∈ xs) ∧
      xs.foldl min x ≤ x ∧ ∀ y ∈ xs, xs.foldl min x ≤ y := by
  induction xs generalizing x with
  | nil => simp
  | cons y ys ih =>
    obtain ⟨hmem, hle, hall⟩ := ih (min x y)
    refine ⟨?_, ?_, ?_⟩
    · rcases hmem with h | h
      · rcases min_choice x y with hxy | hxy
        · exact Or.inl (by rw [List.foldl_cons, h, hxy])
        · exact Or.inr (by rw [List.foldl_cons, h, hxy]; exact List.mem_cons_self _ _)
      · exact Or.inr (List.mem_cons_of_mem _ h)
    · exact le_trans hle (min_le_left _ _)
    · intro z hz
      rcases List.mem_cons.mp hz with rfl | hz
      · exact le_trans hle (min_le_right _ _)
      · exact hall z hz

theorem pymin_none_iff {α : Type} [Min α] (l : List α) :
    pymin l = none ↔ l = [] := by
  cases l <;> simp [pymin]

theorem pymin_spec {α : Type} [LinearOrder α] (l : List α) (m : α)
    (h : pymin l = some m) : m ∈ l ∧ ∀ y ∈ l, m ≤ y := by
  cases l with
  | nil => simp [pymin] at h
  | cons x xs =>
    simp only [pymin, Option.some.injEq] at h
    obtain ⟨hmem, hle, hall⟩ := foldl_min_spec xs x
    subst h
    constructor
    · rcases hmem with h | h
      · rw [h]; exact List.mem_cons_self _ _
      · exact List.mem_cons_of_mem _ h
    · intro y hy
      rcases List.mem_cons.mp hy with rfl | hy
      · exact hle
      · exact hall y hy

/-! ## The type-set check and the pigeonhole argument for three tiers -/

theorem sameTypeSet_iff (ts : List String) :
    sameTypeSet ts = true ↔ ∀ t, t ∈ ts ↔ t ∈ required_types := by
  simp only [sameTypeSet, Bool.and_eq_true, List.all_eq_true, List.elem_iff]
  constructor
  · rintro ⟨h1, h2⟩ t
    exact ⟨fun ht => h2 t ht, fun ht => h1 t ht⟩
  · intro h
    exact ⟨fun t ht => (h t).mpr ht, fun t ht => (h t).mp ht⟩

theorem perm_required_of_typeset (ts : List String) (h3 : ts.length = 3)
    (hset : ∀ t, t ∈ ts ↔ t ∈ required_types) : ts.Perm required_types := by
  obtain ⟨a, b, c, rfl⟩ := List.length_eq_three.mp h3
  have ha : a ∈ required_types := (hset a).mp (by simp)
  have hb : b ∈ required_types := (hset b).mp (by simp)
  have hc : c ∈ required_types := (hset c).mp (by simp)
  have h1 : "basic" ∈ [a, b, c] := (hset _).mpr (by simp [required_types])
  have h2 : "standard" ∈ [a, b, c] := (hset _).mpr (by simp [required_types])
  have h3' : "premium" ∈ [a, b, c] := (hset _).mpr (by simp [required_types])
  simp only [required_types, List.mem_cons, List.mem_singleton,
    List.not_mem_nil, or_false] at ha hb hc
  rcases ha with rfl | rfl | rfl <;> rcases hb with rfl | rfl | rfl <;>
    rcases hc with rfl | rfl | rfl <;> revert h1 h2 h3' <;> decide

/-! ## Behaviour of the create path when no insert fails -/

theorem persist_details_ok (oid : Nat) (db : DB) (k : Nat)
    (ds : List OfferDetailRow) :
    persist_details oid (fun _ => false) db k ds
      = ({ db with details := db.details ++ ds.map (fun d => (oid, d)) }, true) := by
  induction ds generalizing db k with
  | nil => simp [persist_details]
  | cons d rest ih =>
    simp [persist_details, ih, List.append_assoc]

theorem detailsOf_append_own (db : DB) (oid : Nat) (ds : List OfferDetailRow) :
    DB.detailsOf { db with details := db.details ++ ds.map (fun d => (oid, d)) } oid
      = db.detailsOf oid ++ ds := by
  simp [DB.detailsOf, List.filter_append, List.filter_map, Function.comp]

theorem detailsOf_fresh (db : DB)
    (hfresh : ∀ p ∈ db.details, p.1 < db.nextOfferId) :
    db.detailsOf db.nextOfferId = [] := by
  unfold DB.detailsOf
  rw [List.filter_eq_nil_iff.mpr, List.map_nil]
  intro p hp
  simp [Nat.ne_of_lt (hfresh p hp)]

/-- C1: a non-partial Offer creation fails with `ValidationError` iff the
supplied details list does not contain exactly 3 entries whose `offer_type`
set is exactly {basic, standard, premium}; a failed creation leaves the
store untouched, and a successful one persists exactly the 3 supplied
detail rows for the new offer, with pairwise distinct offer types that are
a permutation of basic/standard/premium. -/
theorem offer_create_exactly_three_tiers
    (db : DB) (owner : Nat) (f : OfferFields) (ds : List OfferDetailRow)
    (hfresh : ∀ p ∈ db.details, p.1 < db.nextOfferId) :
    ((∃ msg, (offer_create db owner f ds (fun _ => false)).2
        = .validationError msg) ↔
      ¬(ds.length = 3 ∧
        ∀ t, t ∈ ds.map (fun d => d.offer_type) ↔ t ∈ required_types)) ∧
    (∀ msg, (offer_create db owner f ds (fun _ => false)).2
        = .validationError msg →
      (offer_create db owner f ds (fun _ => false)).1 = db) ∧
    (∀ oid, (offer_create db owner f ds (fun _ => false)).2 = .created oid →
      ((offer_create db owner f ds (fun _ => false)).1.detailsOf oid = ds ∧
        ds.length = 3 ∧
        (ds.map (fun d => d.offer_type)).Perm required_types ∧
        (ds.map (fun d => d.offer_type)).Nodup)) := by
  by_cases h3 : ds.length = 3
  · by_cases hset : sameTypeSet (ds.map (fun d => d.offer_type)) = true
    · -- validation passes, everything is persisted
      have hperm : (ds.map (fun d => d.offer_type)).Perm required_types :=
        perm_required_of_typeset _ (by simp [h3]) ((sameTypeSet_iff _).mp hset)
      have hks : validate_details false (fun d : OfferDetailRow => d.offer_type) ds
          = .ok ds := by
        simp [validate_details, h3, hset]
      have hfil : db.details.filter (fun p => p.1 == db.nextOfferId) = [] :=
        List.filter_eq_nil_iff.mpr
          (fun p hp => by simp [Nat.ne_of_lt (hfresh p hp)])
      refine ⟨?_, ?_, ?_⟩
      · constructor
        · rintro ⟨msg, hmsg⟩
          simp only [offer_create, hks, persist_details_ok] at hmsg
          exact absurd hmsg (by simp)
        · intro hcond
          exact absurd ⟨h3, (sameTypeSet_iff _).mp hset⟩ hcond
      · intro msg hmsg
        simp only [offer_create, hks, persist_details_ok] at hmsg
        exact absurd hmsg (by simp)
      · intro oid hoid
        simp only [offer_create, hks, persist_details_ok] at hoid ⊢
        have hoid' : db.nextOfferId = oid := by
          cases hoid
          rfl
        subst hoid'
        refine ⟨?_, h3, hperm, hperm.nodup_iff.mpr (by decide)⟩
        simp [DB.detailsOf, List.filter_append, hfil, List.filter_map,
          Function.comp]
    · -- wrong offer_type set
      have hks : validate_details false (fun d : OfferDetailRow => d.offer_type) ds
          = .error "Die Details müssen die Typen basic, standard und premium enthalten." := by
        simp [validate_details, h3, hset]
      refine ⟨?_, ?_, ?_⟩
      · constructor
        · intro _ hcond
          exact hset ((sameTypeSet_iff _).mpr hcond.2)
        · intro _
          exact ⟨"Die Details müssen die Typen basic, standard und premium enthalten.",
            by simp [offer_create, hks]⟩
      · intro msg hmsg
        simp [offer_create, hks]
      · intro oid hoid
        simp [offer_create, hks] at hoid
  · -- wrong length
    have hks : validate_details false (fun d : OfferDetailRow => d.offer_type) ds
        = .error "Ein Offer muss genau 3 Details enthalten (basic, standard, premium)." := by
      simp [validate_details, h3]
    refine ⟨?_, ?_, ?_⟩
    · constructor
      · intro _ hcond
        exact h3 hcond.1
      · intro _
        exact ⟨"Ein Offer muss genau 3 Details enthalten (basic, standard, premium).",
          by simp [offer_create, hks]⟩
    · intro msg hmsg
      simp [offer_create, hks]
    · intro oid hoid
      simp [offer_create, hks] at hoid

/-- Concrete sample rows for the three tiers, as in the spec's scenario
(prices 50/100/200 for basic/standard/premium). -/
def sampleBasic : OfferDetailRow :=
  { title := "Basic", revisions := 1, delivery_time_in_days := 3,
    price := 50, features := ["Logo"], offer_type := "basic" }

def sampleStandard : OfferDetailRow :=
  { title := "Standard", revisions := 2, delivery_time_in_days := 5,
    price := 100, features := ["Logo", "Visitenkarte"], offer_type := "standard" }

def samplePremium : OfferDetailRow :=
  { title := "Premium", revisions := 3, delivery_time_in_days := 7,
    price := 200, features := ["Logo", "Visitenkarte", "Briefpapier"],
    offer_type := "premium" }

def sampleDetails : List OfferDetailRow :=
  [sampleBasic, sampleStandard, samplePremium]

def emptyDB : DB := { nextOfferId := 0, offers := [], details := [] }

def sampleFields : OfferFields :=
  { title := "Logo Design", image := none, description := "Ein Logo" }

/-- Witness for C1: on the empty store, creating the sample offer with the
three sample tiers succeeds and persists exactly those three detail rows. -/
theorem offer_create_exactly_three_tiers_witness :
    (offer_create emptyDB 7 sampleFields sampleDetails (fun _ => false)).1.detailsOf 0
        = sampleDetails ∧
      (sampleDetails.map (fun d => d.offer_type)).Nodup := by
  have h := offer_create_exactly_three_tiers emptyDB 7 sampleFields sampleDetails
    (by intro p hp; simp [emptyDB] at hp)
  have hc := h.2.2 0 (by decide)
  exact ⟨hc.1, hc.2.2.2⟩

/-- C2: `min_price` (resp. `min_delivery_time`) is `None` exactly when the
offer has no details, and otherwise is attained by some detail row and is a
lower bound of all detail prices (resp. delivery times). -/
theorem min_price_min_delivery_time_spec (details : List OfferDetailRow) :
    (min_price details = none ↔ details = []) ∧
    (min_delivery_time details = none ↔ details = []) ∧
    (∀ m, min_price details = some m →
      (∃ d ∈ details, d.price = m) ∧ ∀ d ∈ details, m ≤ d.price) ∧
    (∀ m, min_delivery_time details = some m →
      (∃ d ∈ details, d.delivery_time_in_days = m) ∧
        ∀ d ∈ details, m ≤ d.delivery_time_in_days) := by
  refine ⟨?_, ?_, ?_, ?_⟩
  · rw [min_price, pymin_none_iff, List.map_eq_nil_iff]
  · rw [min_delivery_time, pymin_none_iff, List.map_eq_nil_iff]
  · intro m hm
    obtain ⟨hmem, hall⟩ := pymin_spec _ _ hm
    obtain ⟨d, hd, hdm⟩ := List.mem_map.mp hmem
    exact ⟨⟨d, hd, hdm⟩, fun d' hd' => hall _ (List.mem_map_of_mem _ hd')⟩
  · intro m hm
    obtain ⟨hmem, hall⟩ := pymin_spec _ _ hm
    obtain ⟨d, hd, hdm⟩ := List.mem_map.mp hmem
    exact ⟨⟨d, hd, hdm⟩, fun d' hd' => hall _ (List.mem_map_of_mem _ hd')⟩

/-- Witness for C2: on the sample tiers the minimum price 50 is attained and
is a lower bound; on the empty list `min_price` is `None`. -/
theorem min_price_min_delivery_time_spec_witness :
    ((∃ d ∈ sampleDetails, d.price = 50) ∧
      ∀ d ∈ sampleDetails, (50 : ℚ) ≤ d.price) ∧
    (min_price [] = none) := by
  refine ⟨(min_price_min_delivery_time_spec sampleDetails).2.2.1 50 ?_, ?_⟩
  · decide
  · exact (min_price_min_delivery_time_spec []).1.mpr rfl

/-- C4: Offer creation is not atomic.  `OfferSerializer.create` wraps the
`Offer` insert and the three `OfferDetail` inserts in no transaction, so
when the second detail insert fails the already-committed `Offer` row and
its first detail row remain in the store: a persisted `Offer` with exactly
one detail, contradicting the atomicity the spec requires. -/
theorem offer_create_partial_commit_remains :
    (offer_create emptyDB 7 sampleFields sampleDetails (fun k => k == 1)).2
        = .persistError ∧
    (offer_create emptyDB 7 sampleFields sampleDetails (fun k => k == 1)).1.offers
        = [(0, 7, sampleFields)] ∧
    (offer_create emptyDB 7 sampleFields sampleDetails (fun k => k == 1)).1.detailsOf 0
        = [sampleBasic] ∧
    ((offer_create emptyDB 7 sampleFields sampleDetails (fun k => k == 1)).1.detailsOf 0).length
        < 3 := by
  decide

/-! ## Identity: registration (`auth_app`) -/

/-- A row of the Django `auth_user` table as far as this backend reads it. -/
structure UserRow where
  id : Nat
  username : String
  email : String
  password : String
deriving DecidableEq

/-- A `UserProfile` row (`auth_app/models.py`): the one-to-one extension of
a user, keyed by `user_id`, with its `type` (customer/business). -/
structure ProfileRow where
  user_id : Nat
  type : String
deriving DecidableEq

/-- The registration payload of `POST /registration/`
(`auth_app/api/serializers.py`, `UserSerializer` input fields). -/
structure RegisterRequest where
  username : String
  email : String
  password : String
  repeated_password : String
  type : String
deriving DecidableEq

/-- The identity store: `auth_user` plus `UserProfile` rows and the
autoincrement user-id counter. -/
structure AuthDB where
  nextUserId : Nat
  users : List UserRow
  profiles : List ProfileRow
deriving DecidableEq

/-- The validation run of `UserSerializer.is_valid()`
(`auth_app/api/serializers.py`): the serializer is a `ModelSerializer` over
`django.contrib.auth.models.User`, whose `username` column is declared
unique — DRF therefore generates a `UniqueValidator` for `username`.  The
default Django user model declares no uniqueness for `email`, and the
serializer adds none (its `extra_kwargs` only makes `email` required), so a
duplicate email is not rejected.  `type` is a `ChoiceField` over
customer/business, and the serializer-level `validate` compares the two
passwords. -/
def user_serializer_is_valid (users : List UserRow) (r : RegisterRequest) :
    Except String Unit :=
  if users.any (fun u => u.username == r.username) then
    .error "A user with that username already exists."
  else if !(r.type == "customer" || r.type == "business") then
    .error "type is not a valid choice."
  else if r.password != r.repeated_password then
    .error "Passwords do not match"
  else
    .ok ()

/-- `RegisterView.post` (`auth_app/api/views.py`) together with
`UserSerializer.create`: on invalid input respond 400 with no write; else
`User.objects.create_user(...)` then `UserProfile.objects.create(...)`,
responding 201 with the new user id. -/
def register_post (db : AuthDB) (r : RegisterRequest) :
    AuthDB × Except String Nat :=
  match user_serializer_is_valid db.users r with
  | .error msg => (db, .error msg)
  | .ok _ =>
    let uid := db.nextUserId
    ({ nextUserId := uid + 1
       users := db.users ++ [⟨uid, r.username, r.email, r.password⟩]
       profiles := db.profiles ++ [⟨uid, r.type⟩] },
     .ok uid)

/-- Counterexample to C5: with `alice <a@example.com>` registered, a
registration for `bob` with the same email address and matching passwords
is *not* rejected — it succeeds and creates a second `User` row carrying
the duplicate email, because the serializer used by the registration view
checks only username uniqueness. -/
theorem register_duplicate_email_not_rejected :
    ((⟨1, [⟨0, "alice", "a@example.com", "pw"⟩], [⟨0, "customer"⟩]⟩ :
        AuthDB).users.any (fun u => u.email == "a@example.com") = true) ∧
    (register_post ⟨1, [⟨0, "alice", "a@example.com", "pw"⟩], [⟨0, "customer"⟩]⟩
        ⟨"bob", "a@example.com", "secret12", "secret12", "customer"⟩).2 = .ok 1 ∧
    (register_post ⟨1, [⟨0, "alice", "a@example.com", "pw"⟩], [⟨0, "customer"⟩]⟩
        ⟨"bob", "a@example.com", "secret12", "secret12", "customer"⟩).1.users.length
      = 2 :=
  ⟨rfl, rfl, rfl⟩

/-- C5 (amended): a registration whose username is already taken fails with
a 400 validation error and writes nothing; any failing registration writes
nothing; and a registration with a fresh username, a valid type and
matching passwords succeeds and appends the new `User` row — regardless of
whether the email is already in use. -/
theorem register_post_spec (db : AuthDB) (r : RegisterRequest) :
    (db.users.any (fun u => u.username == r.username) = true →
      (∃ msg, (register_post db r).2 = .error msg) ∧
        (register_post db r).1 = db) ∧
    (∀ msg, (register_post db r).2 = .error msg → (register_post db r).1 = db) ∧
    (db.users.any (fun u => u.username == r.username) = false →
      (r.type = "customer" ∨ r.type = "business") →
      r.password = r.repeated_password →
        (register_post db r).2 = .ok db.nextUserId ∧
        (register_post db r).1.users
          = db.users ++ [⟨db.nextUserId, r.username, r.email, r.password⟩]) := by
  refine ⟨?_, ?_, ?_⟩
  · intro hdup
    refine ⟨⟨"A user with that username already exists.", ?_⟩, ?_⟩ <;>
      simp [register_post, user_serializer_is_valid, hdup]
  · intro msg hmsg
    unfold register_post at hmsg ⊢
    rcases h : user_serializer_is_valid db.users r with m | u
    · simp [h]
    · simp [h] at hmsg
  · intro hfresh htype hpw
    have hval : user_serializer_is_valid db.users r = .ok () := by
      rcases htype with h | h <;>
        simp [user_serializer_is_valid, hfresh, h, hpw]
    simp [register_post, hval]

/-- Witness for C5 (amended): on the store holding only `alice`, a request
reusing the username `alice` is rejected without a write, and a request for
the fresh username `bob` succeeds. -/
theorem register_post_spec_witness :
    ((∃ msg, (register_post ⟨1, [⟨0, "alice", "a@example.com", "pw"⟩], [⟨0, "customer"⟩]⟩
        ⟨"alice", "b@example.com", "secret12", "secret12", "business"⟩).2 = .error msg) ∧
      (register_post ⟨1, [⟨0, "alice", "a@example.com", "pw"⟩], [⟨0, "customer"⟩]⟩
        ⟨"alice", "b@example.com", "secret12", "secret12", "business"⟩).1
        = ⟨1, [⟨0, "alice", "a@example.com", "pw"⟩], [⟨0, "customer"⟩]⟩) ∧
    ((register_post ⟨1, [⟨0, "alice", "a@example.com", "pw"⟩], [⟨0, "customer"⟩]⟩
        ⟨"bob", "b@example.com", "secret12", "secret12", "business"⟩).2 = .ok 1) := by
  refine ⟨(register_post_spec _ _).1 (by decide), ?_⟩
  exact ((register_post_spec _ _).2.2 (by decide) (Or.inr rfl) rfl).1

/-! ## Transaction: the order-count endpoints (`marketplace_app/api/views.py`) -/

/-- An `Order` row as far as the count endpoints read it: its buyer foreign
key and its free-form status string. -/
structure OrderRow where
  buyer_id : Nat
  status : String
deriving DecidableEq

/-- The shared body of `OrderCountView.get` and
`CompletedOrderCountView.get` (`marketplace_app/api/views.py`): resolve the
id to a `User` (404 if absent), fetch its one-to-one profile (the bare
`except:` turns a missing profile into the same 404), 404 unless the
profile type is `business`, and otherwise count the orders with
`buyer_id == business_user_id` and the requested status. -/
def order_count_response (users : List UserRow) (profiles : List ProfileRow)
    (orders : List OrderRow) (business_user_id : Nat) (statusValue : String) :
    Except String Nat :=
  match users.find? (fun u => u.id == business_user_id) with
  | none => .error "Kein Geschäftsnutzer mit der angegebenen ID gefunden."
  | some _ =>
    match profiles.find? (fun p => p.user_id == business_user_id) with
    | none => .error "Kein Geschäftsnutzer mit der angegebenen ID gefunden."
    | some profile =>
      if profile.type ≠ "business" then
        .error "Der angegebene Benutzer ist kein Geschäftsnutzer."
      else
        .ok ((orders.filter (fun o =>
          o.buyer_id == business_user_id && o.status == statusValue)).length)

/-- `GET /order-count/{business_user_id}/`: status `in_progress`. -/
def order_count_get (users : List UserRow) (profiles : List ProfileRow)
    (orders : List OrderRow) (business_user_id : Nat) : Except String Nat :=
  order_count_response users profiles orders business_user_id "in_progress"

/-- `GET /completed-order-count/{business_user_id}/`: status `completed`. -/
def completed_order_count_get (users : List UserRow) (profiles : List ProfileRow)
    (orders : List OrderRow) (business_user_id : Nat) : Except String Nat :=
  order_count_response users profiles orders business_user_id "completed"

/-- The spec-side precondition "the id resolves to a User with a
business-type profile". -/
def resolves_to_business_user (users : List UserRow) (profiles : List ProfileRow)
    (uid : Nat) : Bool :=
  users.any (fun u => u.id == uid) &&
    match profiles.find? (fun p => p.user_id == uid) with
    | some p => p.type == "business"
    | none => false

/-- C6: an order-count request 404s exactly when the id does not resolve to
a user with a business-type profile, and otherwise returns the number of
orders whose `buyer_id` equals the requested id and whose status is the
requested value; `/order-count/` asks for `in_progress` and
`/completed-order-count/` for `completed`. -/
theorem order_count_views_spec (users : List UserRow)
    (profiles : List ProfileRow) (orders : List OrderRow)
    (uid : Nat) (statusValue : String) :
    ((∃ msg, order_count_response users profiles orders uid statusValue
        = .error msg) ↔ resolves_to_business_user users profiles uid = false) ∧
    (resolves_to_business_user users profiles uid = true →
      order_count_response users profiles orders uid statusValue
        = .ok ((orders.filter (fun o =>
            o.buyer_id == uid && o.status == statusValue)).length)) ∧
    order_count_get users profiles orders uid
      = order_count_response users profiles orders uid "in_progress" ∧
    completed_order_count_get users profiles orders uid
      = order_count_response users profiles orders uid "completed" := by
  have hmain : ∀ s : String,
      ((∃ msg, order_count_response users profiles orders uid s = .error msg) ↔
        resolves_to_business_user users profiles uid = false) ∧
      (resolves_to_business_user users profiles uid = true →
        order_count_response users profiles orders uid s
          = .ok ((orders.filter (fun o =>
              o.buyer_id == uid && o.status == s)).length)) := by
    intro s
    unfold order_count_response resolves_to_business_user
    rcases hu : users.find? (fun u => u.id == uid) with _ | u
    · have hany : users.any (fun u => u.id == uid) = false :=
        List.any_eq_false.mpr (by simpa using List.find?_eq_none.mp hu)
      simp [hu, hany]
    · have hpu := List.find?_some hu
      have hany : users.any (fun u => u.id == uid) = true :=
        List.any_eq_true.mpr ⟨u, List.mem_of_find?_eq_some hu, hpu⟩
      rcases hp : profiles.find? (fun p => p.user_id == uid) with _ | p
      · simp [hu, hp, hany]
      · by_cases hb : p.type = "business"
        · simp [hu, hp, hany, hb]
        · simp [hu, hp, hany, hb]
  exact ⟨(hmain statusValue).1, (hmain statusValue).2, rfl, rfl⟩

/-- Sample identity store: user 42 is a business user, user 7 a customer. -/
def sampleUsers : List UserRow :=
  [⟨42, "biz", "biz@example.com", "pw"⟩, ⟨7, "cust", "cust@example.com", "pw"⟩]

def sampleProfiles : List ProfileRow := [⟨42, "business"⟩, ⟨7, "customer"⟩]

def sampleOrders : List OrderRow :=
  [⟨42, "in_progress"⟩, ⟨42, "completed"⟩, ⟨7, "in_progress"⟩]

/-- Witness for C6: user 42 (business) gets its in-progress count 1, while
user 7 (customer profile) yields a 404, as in the spec's scenario. -/
theorem order_count_views_spec_witness :
    order_count_response sampleUsers sampleProfiles sampleOrders 42 "in_progress"
        = .ok 1 ∧
    (∃ msg, order_count_response sampleUsers sampleProfiles sampleOrders 7
        "in_progress" = .error msg) := by
  constructor
  · exact ((order_count_views_spec sampleUsers sampleProfiles sampleOrders 42
      "in_progress").2.1 (by decide)).trans (by rfl)
  · exact (order_count_views_spec sampleUsers sampleProfiles sampleOrders 7
      "in_progress").1.mpr (by decide)

/-! ## Feedback: review creation (`marketplace_app/api/serializers.py`) -/

/-- A `Review` row (`marketplace_app/models.py`): reviewed business user,
reviewer, rating and description. -/
structure ReviewRow where
  business_user : Nat
  reviewer : Nat
  rating : Int
  description : String
deriving DecidableEq

/-- `ReviewSerializer.validate_rating`: rejects a rating `< 1` or `> 5`. -/
def validate_rating (value : Int) : Except String Int :=
  if value < 1 || value > 5 then
    .error "Rating muss zwischen 1 und 5 liegen."
  else
    .ok value

/-- `ReviewSerializer.validate_business_user`: inside a `try`, compare
`value.profile.type` with `'business'`; the bare `except:` catches both a
missing one-to-one profile and the inner `ValidationError`, so either path
surfaces as the profile error message. -/
def validate_business_user (profiles : List ProfileRow) (uid : Nat) :
    Except String Nat :=
  match profiles.find? (fun p => p.user_id == uid) with
  | some p =>
    if p.type ≠ "business" then
      .error "Der angegebene Benutzer hat kein gültiges Profil."
    else
      .ok uid
  | none => .error "Der angegebene Benutzer hat kein gültiges Profil."

/-- `POST /reviews/` through `ReviewSerializer` and
`ReviewViewSet.perform_create`: the `business_user` primary key must exist
(`PrimaryKeyRelatedField` over `User.objects.all()`), the rating and the
business user are validated, the reviewer is forced to the caller, and only
a fully valid payload appends a `Review` row. -/
def review_create (users : List UserRow) (profiles : List ProfileRow)
    (reviews : List ReviewRow) (reviewer : Nat) (business_user : Nat)
    (rating : Int) (description : String) :
    List ReviewRow × Except String Unit :=
  if !(users.any (fun u => u.id == business_user)) then
    (reviews, .error "Invalid pk")
  else
    match validate_rating rating with
    | .error msg => (reviews, .error msg)
    | .ok _ =>
      match validate_business_user profiles business_user with
      | .error msg => (reviews, .error msg)
      | .ok _ =>
        (reviews ++ [⟨business_user, reviewer, rating, description⟩], .ok ())

/-- C7: a review creation fails with a `ValidationError` whenever the
rating lies outside `[1,5]` or the named business user has no profile or a
profile whose type is not `business`; and any failing creation leaves the
review table unchanged. -/
theorem review_create_validates (users : List UserRow)
    (profiles : List ProfileRow) (reviews : List ReviewRow)
    (reviewer business_user : Nat) (rating : Int) (description : String) :
    ((rating < 1 ∨ rating > 5) →
      (∃ msg, (review_create users profiles reviews reviewer business_user
          rating description).2 = .error msg)) ∧
    ((∀ p, profiles.find? (fun q => q.user_id == business_user) = some p →
        p.type ≠ "business") →
      (∃ msg, (review_create users profiles reviews reviewer business_user
          rating description).2 = .error msg)) ∧
    (∀ msg, (review_create users profiles reviews reviewer business_user
        rating description).2 = .error msg →
      (review_create users profiles reviews reviewer business_user
        rating description).1 = reviews) := by
  refine ⟨?_, ?_, ?_⟩
  · intro hbad
    unfold review_create
    rcases hex : users.any (fun u => u.id == business_user) with _ | _
    · exact ⟨"Invalid pk", by simp⟩
    · have hr : validate_rating rating = .error "Rating muss zwischen 1 und 5 liegen." := by
        unfold validate_rating
        rcases hbad with h | h <;> simp [h]
      exact ⟨"Rating muss zwischen 1 und 5 liegen.", by simp [hr]⟩
  · intro hbad
    unfold review_create
    rcases hex : users.any (fun u => u.id == business_user) with _ | _
    · exact ⟨"Invalid pk", by simp⟩
    · have hb : validate_business_user profiles business_user
          = .error "Der angegebene Benutzer hat kein gültiges Profil." := by
        unfold validate_business_user
        rcases hp : profiles.find? (fun q => q.user_id == business_user) with _ | p
        · simp [hp]
        · simp [hp, hbad p hp]
      rcases hr : validate_rating rating with msg | v
      · exact ⟨msg, by simp [hr]⟩
      · exact ⟨"Der angegebene Benutzer hat kein gültiges Profil.", by simp [hr, hb]⟩
  · intro msg hmsg
    unfold review_create at hmsg ⊢
    rcases hex : users.any (fun u => u.id == business_user) with _ | _
    · simp
    · rcases hr : validate_rating rating with m | v
      · simp [hr]
      · rcases hb : validate_business_user profiles business_user with m | u
        · simp [hr, hb]
        · rw [hex] at hmsg
          simp [hr, hb] at hmsg

/-- Witness for C7: rating 6 for the business user 42 is rejected and
writes nothing, and a review for customer 7 is rejected as well. -/
theorem review_create_validates_witness :
    (∃ msg, (review_create sampleUsers sampleProfiles [] 7 42 6 "toll").2
        = .error msg) ∧
    (review_create sampleUsers sampleProfiles [] 7 42 6 "toll").1 = [] ∧
    (∃ msg, (review_create sampleUsers sampleProfiles [] 7 7 3 "ok").2
        = .error msg) := by
  refine ⟨?_, ?_, ?_⟩
  · exact (review_create_validates sampleUsers sampleProfiles [] 7 42 6 "toll").1
      (Or.inr (by decide))
  · obtain ⟨msg, hmsg⟩ := (review_create_validates sampleUsers sampleProfiles
      [] 7 42 6 "toll").1 (Or.inr (by decide))
    exact (review_create_validates sampleUsers sampleProfiles [] 7 42 6
      "toll").2.2 msg hmsg
  · exact (review_create_validates sampleUsers sampleProfiles [] 7 7 3 "ok").2.1
      (by decide)

/-! ## Offer listing filters (`OfferViewSet.get_queryset`) -/

/-- The `min_price` stage of `OfferViewSet.get_queryset`
(`marketplace_app/api/views.py`): `if min_price:` skips an absent or empty
parameter; `float(min_price)` may raise `ValueError`, in which case the
filter is silently skipped (`except ValueError: pass`); on success the
queryset is annotated with `lowest_price=Min('details__price')` and
filtered by `lowest_price__gte` — under SQL semantics an offer without
details has a `NULL` aggregate and never satisfies `>=`.  `float?` stands
for Python's `float` parser (given infrastructure). -/
def filter_min_price (db : DB) (ids : List Nat) (param : Option String)
    (float? : String → Option ℚ) : List Nat :=
  match param with
  | none => ids
  | some s =>
    if s = "" then ids
    else
      match float? s with
      | none => ids
      | some t =>
        ids.filter (fun oid =>
          match min_price (db.detailsOf oid) with
          | some p => decide (t ≤ p)
          | none => false)

/-- The `max_delivery_time` stage of `OfferViewSet.get_queryset`: same
shape, with `int(max_delivery_time)` as the parser and the filter
`fastest_delivery__lte` on `Min('details__delivery_time_in_days')`. -/
def filter_max_delivery_time (db : DB) (ids : List Nat) (param : Option String)
    (int? : String → Option Int) : List Nat :=
  match param with
  | none => ids
  | some s =>
    if s = "" then ids
    else
      match int? s with
      | none => ids
      | some t =>
        ids.filter (fun oid =>
          match min_delivery_time (db.detailsOf oid) with
          | some p => decide ((p : Int) ≤ t)
          | none => false)

/-- C8: when the `min_price` query parameter parses as a number, the result
holds exactly the offers whose minimum detail price is at least the
threshold; when it does not parse (or is absent), the stage is the
identity, i.e. behaves as if the parameter were absent. -/
theorem filter_min_price_spec (db : DB) (ids : List Nat) (s : String)
    (t : ℚ) (float? : String → Option ℚ) :
    (float? s = some t → s ≠ "" →
      ∀ oid, oid ∈ filter_min_price db ids (some s) float? ↔
        oid ∈ ids ∧ ∃ p, min_price (db.detailsOf oid) = some p ∧ t ≤ p) ∧
    (float? s = none → filter_min_price db ids (some s) float?
        = filter_min_price db ids none float?) ∧
    filter_min_price db ids none float? = ids := by
  refine ⟨?_, ?_, rfl⟩
  · intro hparse hne oid
    simp only [filter_min_price, if_neg hne, hparse, List.mem_filter]
    rcases hmp : min_price (db.detailsOf oid) with _ | p
    · simp [hmp]
    · simp [hmp]
  · intro hparse
    unfold filter_min_price
    by_cases hne : s = "" <;> simp [hne, hparse]

/-- Witness for C8: with one offer (id 0) priced from 50 and one (id 1)
priced from 10, threshold 20 keeps exactly offer 0, and a non-numeric
parameter leaves the listing untouched. -/
theorem filter_min_price_spec_witness :
    (0 ∈ filter_min_price
        ⟨2, [(0, 7, sampleFields), (1, 7, sampleFields)],
          [(0, sampleBasic), (1, { sampleBasic with price := 10 })]⟩
        [0, 1] (some "20")
        (fun x => if x = "20" then some 20 else none) ↔
      0 ∈ [0, 1] ∧ ∃ p, min_price (DB.detailsOf
        ⟨2, [(0, 7, sampleFields), (1, 7, sampleFields)],
          [(0, sampleBasic), (1, { sampleBasic with price := 10 })]⟩ 0)
        = some p ∧ 20 ≤ p) ∧
    filter_min_price
        ⟨2, [(0, 7, sampleFields), (1, 7, sampleFields)],
          [(0, sampleBasic), (1, { sampleBasic with price := 10 })]⟩
        [0, 1] (some "abc")
        (fun x => if x = "20" then some 20 else none)
      = [0, 1] := by
  constructor
  · exact (filter_min_price_spec _ [0, 1] "20" 20 _).1 (by decide)
      (by decide) 0
  · exact ((filter_min_price_spec _ [0, 1] "abc" 20 _).2.1 (by decide)).trans
      ((filter_min_price_spec _ [0, 1] "abc" 20 _).2.2)

/-- C10: an offer with no detail rows is excluded by every numeric
`min_price` and every numeric `max_delivery_time` filter, while the
unfiltered listing keeps it (its `min_price` serialising as null). -/
theorem filter_excludes_detailless_offer (db : DB) (ids : List Nat)
    (oid : Nat) (s : String) (t : ℚ) (u : Int)
    (float? : String → Option ℚ) (int? : String → Option Int)
    (hnodetails : db.detailsOf oid = []) :
    (float? s = some t → s ≠ "" →
      oid ∉ filter_min_price db ids (some s) float?) ∧
    (int? s = some u → s ≠ "" →
      oid ∉ filter_max_delivery_time db ids (some s) int?) ∧
    (oid ∈ ids → oid ∈ filter_min_price db ids none float?) ∧
    min_price (db.detailsOf oid) = none := by
  have hmp : min_price (db.detailsOf oid) = none := by
    rw [hnodetails]
    rfl
  have hmd : min_delivery_time (db.detailsOf oid) = none := by
    rw [hnodetails]
    rfl
  refine ⟨?_, ?_, ?_, hmp⟩
  · intro hparse hne hmem
    simp only [filter_min_price, if_neg hne, hparse] at hmem
    have := (List.mem_filter.mp hmem).2
    rw [hmp] at this
    simp at this
  · intro hparse hne hmem
    simp only [filter_max_delivery_time, if_neg hne, hparse] at hmem
    have := (List.mem_filter.mp hmem).2
    rw [hmd] at this
    simp at this
  · intro hmem
    exact hmem

/-- Witness for C10: offer 1 of this store has no details; the numeric
filters drop it and the plain listing keeps it. -/
theorem filter_excludes_detailless_offer_witness :
    (1 ∉ filter_min_price ⟨2, [(0, 7, sampleFields), (1, 7, sampleFields)],
        [(0, sampleBasic)]⟩ [0, 1] (some "20")
        (fun x => if x = "20" then some 20 else none)) ∧
    (1 ∈ filter_min_price ⟨2, [(0, 7, sampleFields), (1, 7, sampleFields)],
        [(0, sampleBasic)]⟩ [0, 1] none
        (fun x => if x = "20" then some 20 else none)) := by
  have h := filter_excludes_detailless_offer
    ⟨2, [(0, 7, sampleFields), (1, 7, sampleFields)], [(0, sampleBasic)]⟩
    [0, 1] 1 "20" 20 5 (fun x => if x = "20" then some 20 else none)
    (fun x => if x = "20" then some 5 else none) (by decide)
  exact ⟨h.1 (by decide) (by decide), h.2.2.1 (by decide)⟩

/-! ## Offer update (`OfferSerializer.update`) -/

/-- One incoming nested detail dict of an Offer update: every sub-field may
be absent (the code reads them with `detail_data.get(field, old_value)`),
while `offer_type` is the matching key (`detail_data.get('offer_type')`). -/
structure DetailPatch where
  title : Option String
  revisions : Option Nat
  delivery_time_in_days : Option Nat
  price : Option ℚ
  features : Option (List String)
  offer_type : String
deriving DecidableEq

/-- The matched branch of `OfferSerializer.update`: each provided sub-field
overwrites the stored one (`detail.title = detail_data.get('title',
detail.title)` and so on); `offer_type` is never touched. -/
def merge_detail (e : OfferDetailRow) (d : DetailPatch) : OfferDetailRow :=
  { title := d.title.getD e.title
    revisions := d.revisions.getD e.revisions
    delivery_time_in_days := d.delivery_time_in_days.getD e.delivery_time_in_days
    price := d.price.getD e.price
    features := d.features.getD e.features
    offer_type := e.offer_type }

/-- The unmatched branch, `OfferDetail.objects.create(offer=instance,
**detail_data)`: a fresh row from the incoming dict.  An absent sub-field
falls back to the model column default here (`features` defaults to `[]`);
Django would reject a row missing a required column, and no claim or
witness exercises that case. -/
def new_detail (d : DetailPatch) : OfferDetailRow :=
  { title := d.title.getD ""
    revisions := d.revisions.getD 0
    delivery_time_in_days := d.delivery_time_in_days.getD 0
    price := d.price.getD 0
    features := d.features.getD []
    offer_type := d.offer_type }

/-- The dict `existing_details = {detail.offer_type: detail for detail in
instance.details.all()}`, as a partial map from an offer type to the
position of the row the dict holds for it: comprehension order makes the
last row with a given type win. -/
def last_match_idx : List OfferDetailRow → String → Option Nat
  | [], _ => none
  | e :: rest, t =>
    match last_match_idx rest t with
    | some i => some (i + 1)
    | none => if e.offer_type == t then some 0 else none

/-- The `for detail_data in details_data` loop of `OfferSerializer.update`:
`existing` is the snapshot the dict was built from (it is built once,
before the loop), `store` the current table contents for this offer.  A
matched incoming dict mutates the dicted row in place (`detail.save()`), an
unmatched one appends a fresh row. -/
def update_details_loop (existing : List OfferDetailRow) :
    List OfferDetailRow → List DetailPatch → List OfferDetailRow
  | store, [] => store
  | store, d :: rest =>
    match last_match_idx existing d.offer_type with
    | some i => update_details_loop existing
        (store.set i (merge_detail (store.getD i default) d)) rest
    | none => update_details_loop existing (store ++ [new_detail d]) rest

/-- The effect of `OfferSerializer.update` on the offer's detail rows when
a `details` list is supplied: run the loop on the current rows. -/
def update_details (existing : List OfferDetailRow)
    (incoming : List DetailPatch) : List OfferDetailRow :=
  update_details_loop existing existing incoming

/-- Spec-side description of what happens to one stored row: it absorbs, in
order, every incoming dict whose `offer_type` matches it. -/
def merge_matching (incoming : List DetailPatch) (e : OfferDetailRow) :
    OfferDetailRow :=
  (incoming.filter (fun d => d.offer_type == e.offer_type)).foldl merge_detail e

/-- Spec-side description of the appended rows: the incoming dicts whose
`offer_type` matches no stored row. -/
def unmatched_patches (existing : List OfferDetailRow)
    (incoming : List DetailPatch) : List DetailPatch :=
  incoming.filter
    (fun d => !((existing.map (fun e => e.offer_type)).contains d.offer_type))

theorem merge_detail_offer_type (e : OfferDetailRow) (d : DetailPatch) :
    (merge_detail e d).offer_type = e.offer_type := rfl

theorem foldl_merge_offer_type (l : List DetailPatch) (e : OfferDetailRow) :
    (l.foldl merge_detail e).offer_type = e.offer_type := by
  induction l generalizing e with
  | nil => rfl
  | cons d rest ih => rw [List.foldl_cons, ih, merge_detail_offer_type]

theorem merge_matching_offer_type (incoming : List DetailPatch)
    (e : OfferDetailRow) : (merge_matching incoming e).offer_type = e.offer_type :=
  foldl_merge_offer_type _ _

theorem last_match_idx_none_iff (ex : List OfferDetailRow) (t : String) :
    last_match_idx ex t = none ↔ t ∉ ex.map (fun e => e.offer_type) := by
  induction ex with
  | nil => simp [last_match_idx]
  | cons e rest ih =>
    simp only [last_match_idx]
    rcases h : last_match_idx rest t with _ | i
    · have hrest := ih.mp h
      by_cases he : e.offer_type = t
      · simp [he]
      · simp [he, hrest, Ne.symm he]
    · have hmem : t ∈ rest.map (fun e => e.offer_type) := by
        by_contra hnot
        rw [← ih] at hnot
        rw [h] at hnot
        exact Option.some_ne_none _ hnot
      simp [hmem]

theorem last_match_idx_some (ex : List OfferDetailRow) (t : String) (i : Nat)
    (h : last_match_idx ex t = some i) :
    ∃ hlt : i < ex.length, (ex.get ⟨i, hlt⟩).offer_type = t := by
  induction ex generalizing i with
  | nil => simp [last_match_idx] at h
  | cons e rest ih =>
    simp only [last_match_idx] at h
    rcases hr : last_match_idx rest t with _ | j
    · rw [hr] at h
      by_cases he : e.offer_type = t
      · rw [if_pos (by simp [he])] at h
        cases h
        exact ⟨Nat.succ_pos _, he⟩
      · rw [if_neg (by simp [he])] at h
        cases h
    · rw [hr] at h
      cases h
      obtain ⟨hlt, hty⟩ := ih j hr
      exact ⟨Nat.succ_lt_succ hlt, hty⟩

theorem update_details_loop_chara (existing : List OfferDetailRow)
    (hnd : (existing.map (fun e => e.offer_type)).Nodup) :
    ∀ (incoming : List DetailPatch) (ex news : List OfferDetailRow),
      ex.map (fun e => e.offer_type) = existing.map (fun e => e.offer_type) →
      update_details_loop existing (ex ++ news) incoming
        = ex.map (merge_matching incoming) ++ news
            ++ (unmatched_patches existing incoming).map new_detail := by
  intro incoming
  induction incoming with
  | nil =>
    intro ex news htypes
    have hid : ex.map (merge_matching []) = ex :=
      List.map_congr_left (fun e _ => rfl) |>.trans (List.map_id ex)
    simp [update_details_loop, unmatched_patches, hid]
  | cons d rest ih =>
    intro ex news htypes
    have hlenex : ex.length = existing.length := by
      have h := congrArg List.length htypes
      simpa using h
    have hexty : ∀ (n : Nat) (hn : n < ex.length) (hn2 : n < existing.length),
        (ex.get ⟨n, hn⟩).offer_type
          = (existing.get ⟨n, hn2⟩).offer_type := by
      intro n hn hn2
      have h1 : n < (ex.map (fun e => e.offer_type)).length := by simpa using hn
      have h2 := List.getElem_of_eq htypes h1
      rw [List.getElem_map, List.getElem_map] at h2
      simpa using h2
    rcases hidx : last_match_idx existing d.offer_type with _ | i
    · -- unmatched offer_type: a fresh row is appended
      have hnotmem : d.offer_type ∉ existing.map (fun e => e.offer_type) :=
        (last_match_idx_none_iff _ _).mp hidx
      have hstep : update_details_loop existing (ex ++ news) (d :: rest)
          = update_details_loop existing ((ex ++ news) ++ [new_detail d]) rest := by
        simp only [update_details_loop, hidx]
      rw [hstep, List.append_assoc, ih ex (news ++ [new_detail d]) htypes]
      have hmapeq : ex.map (merge_matching (d :: rest))
          = ex.map (merge_matching rest) := by
        apply List.map_congr_left
        intro e he
        have hne : (d.offer_type == e.offer_type) = false := by
          apply beq_eq_false_iff_ne.mpr
          intro hcontra
          apply hnotmem
          rw [hcontra, ← htypes]
          exact List.mem_map_of_mem _ he
        unfold merge_matching
        rw [List.filter_cons_of_neg (by simp [hne])]
      have hunm : unmatched_patches existing (d :: rest)
          = d :: unmatched_patches existing rest := by
        unfold unmatched_patches
        rw [List.filter_cons_of_pos (by simp [hnotmem])]
      rw [hmapeq, hunm]
      simp [List.append_assoc]
    · -- matched offer_type: the dicted row is merged in place
      obtain ⟨hi, hty⟩ := last_match_idx_some existing _ i hidx
      have hi' : i < ex.length := by omega
      have hilt : i < (ex ++ news).length := by
        rw [List.length_append]
        omega
      have hgetD : (ex ++ news).getD i default = ex.get ⟨i, hi'⟩ := by
        rw [List.getD_eq_getElem _ _ hilt, List.getElem_append_left hi']
        simp [List.get_eq_getElem]
      have hstep : update_details_loop existing (ex ++ news) (d :: rest)
          = update_details_loop existing
              ((ex.set i (merge_detail (ex.get ⟨i, hi'⟩) d)) ++ news) rest := by
        simp only [update_details_loop, hidx]
        rw [hgetD, List.set_append_left _ _ hi']
      have hdty : d.offer_type = (ex.get ⟨i, hi'⟩).offer_type := by
        rw [hexty i hi' hi]
        exact hty.symm
      have htypes' : (ex.set i (merge_detail (ex.get ⟨i, hi'⟩) d)).map
            (fun e => e.offer_type)
          = existing.map (fun e => e.offer_type) := by
        rw [List.map_set, merge_detail_offer_type, ← htypes]
        apply List.ext_getElem
        · simp
        · intro n h1 h2
          by_cases hn : n = i
          · subst hn
            rw [List.getElem_set_self (by simpa using h2), List.getElem_map]
            simp [List.get_eq_getElem]
          · rw [List.getElem_set_ne (Ne.symm hn)]
      rw [hstep, ih _ news htypes']
      have hunm : unmatched_patches existing (d :: rest)
          = unmatched_patches existing rest := by
        unfold unmatched_patches
        have hmem : d.offer_type ∈ existing.map (fun e => e.offer_type) := by
          rw [← hty]
          exact List.mem_map_of_mem _ (List.get_mem existing i hi)
        rw [List.filter_cons_of_neg (by simp [hmem])]
      have hmaps : (ex.set i (merge_detail (ex.get ⟨i, hi'⟩) d)).map
            (merge_matching rest)
          = ex.map (merge_matching (d :: rest)) := by
        apply List.ext_getElem
        · simp
        · intro n h1 h2
          have hn2 : n < ex.length := by simpa using h2
          have hn1 : n < (ex.set i (merge_detail (ex.get ⟨i, hi'⟩) d)).length := by
            simpa using hn2
          rw [List.getElem_map, List.getElem_map]
          have key : merge_matching (d :: rest) (ex.get ⟨i, hi'⟩)
              = merge_matching rest (merge_detail (ex.get ⟨i, hi'⟩) d) := by
            unfold merge_matching
            rw [List.filter_cons_of_pos (by simp [hdty]), List.foldl_cons]
            congr 1
          by_cases hn : n = i
          · subst hn
            rw [List.getElem_set_self (by simpa using hn1)]
            have hexi : ex[n] = ex.get ⟨n, hi'⟩ := by
              simp [List.get_eq_getElem]
            rw [hexi]
            exact key.symm
          · rw [List.getElem_set_ne (Ne.symm hn)]
            unfold merge_matching
            have hmapi : i < (ex.map (fun e => e.offer_type)).length := by
              simpa using hi'
            have hmapn : n < (ex.map (fun e => e.offer_type)).length := by
              simpa using hn2
            have hne : (d.offer_type == ex[n].offer_type) = false := by
              apply beq_eq_false_iff_ne.mpr
              rw [hdty]
              intro hcontra
              have hb1 : (ex.map (fun e => e.offer_type))[i]
                  = (ex.map (fun e => e.offer_type))[n] := by
                rw [List.getElem_map, List.getElem_map]
                simp [List.get_eq_getElem] at hcontra
                exact hcontra
              have hnd' : (ex.map (fun e => e.offer_type)).Nodup := by
                rw [htypes]
                exact hnd
              exact hn (((List.Nodup.getElem_inj_iff hnd').mp hb1).symm)
            rw [List.filter_cons_of_neg (by simp [hne])]
      rw [hmaps, hunm]

/-- C3: on a partial update the exactly-3/type-set validation is skipped
(`validate_details` accepts any list); when a `details` list is supplied,
every stored row absorbs exactly the incoming details matching its
`offer_type` (given the stored types are distinct, as the data model
requires), unmatched incoming details append fresh rows, and the merge
overwrites exactly the provided sub-fields, never `offer_type`. -/
theorem offer_update_merge_semantics :
    (∀ v : List DetailPatch,
      validate_details true (fun d => d.offer_type) v = .ok v) ∧
    (∀ (existing : List OfferDetailRow) (incoming : List DetailPatch),
      (existing.map (fun e => e.offer_type)).Nodup →
      update_details existing incoming
        = existing.map (merge_matching incoming)
          ++ (unmatched_patches existing incoming).map new_detail) ∧
    (∀ (e : OfferDetailRow) (d : DetailPatch),
      (d.title = none → (merge_detail e d).title = e.title) ∧
      (∀ x, d.title = some x → (merge_detail e d).title = x) ∧
      (d.revisions = none → (merge_detail e d).revisions = e.revisions) ∧
      (∀ x, d.revisions = some x → (merge_detail e d).revisions = x) ∧
      (d.delivery_time_in_days = none →
        (merge_detail e d).delivery_time_in_days = e.delivery_time_in_days) ∧
      (∀ x, d.delivery_time_in_days = some x →
        (merge_detail e d).delivery_time_in_days = x) ∧
      (d.price = none → (merge_detail e d).price = e.price) ∧
      (∀ x, d.price = some x → (merge_detail e d).price = x) ∧
      (d.features = none → (merge_detail e d).features = e.features) ∧
      (∀ x, d.features = some x → (merge_detail e d).features = x) ∧
      (merge_detail e d).offer_type = e.offer_type) := by
  refine ⟨fun v => rfl, ?_, ?_⟩
  · intro existing incoming hnd
    have h := update_details_loop_chara existing hnd incoming existing [] rfl
    rw [List.append_nil] at h
    rw [update_details, h, List.append_nil]
  · intro e d
    refine ⟨?_, ?_, ?_, ?_, ?_, ?_, ?_, ?_, ?_, ?_, rfl⟩ <;>
      first
        | (intro h; simp [merge_detail, h])
        | (intro x h; simp [merge_detail, h])

/-- An incoming dict for tier `standard` that provides only a new price and
revision count. -/
def patchStandard : DetailPatch :=
  { title := none, revisions := some 5, delivery_time_in_days := none,
    price := some 80, features := none, offer_type := "standard" }

/-- Witness for C3: updating the three sample tiers with `patchStandard`
realises the merge characterisation; validation is skipped on partial
input; and the merge keeps the stored title while taking the new price. -/
theorem offer_update_merge_semantics_witness :
    update_details sampleDetails [patchStandard]
        = sampleDetails.map (merge_matching [patchStandard])
          ++ (unmatched_patches sampleDetails [patchStandard]).map new_detail ∧
    validate_details true (fun d : DetailPatch => d.offer_type) [patchStandard]
        = .ok [patchStandard] ∧
    (merge_detail sampleStandard patchStandard).title = sampleStandard.title ∧
    (merge_detail sampleStandard patchStandard).price = 80 := by
  refine ⟨offer_update_merge_semantics.2.1 sampleDetails [patchStandard]
      (by decide),
    offer_update_merge_semantics.1 [patchStandard],
    (offer_update_merge_semantics.2.2 sampleStandard patchStandard).1 rfl,
    (offer_update_merge_semantics.2.2 sampleStandard patchStandard).2.2.2.2.2.2.2.1
      80 rfl⟩

/-- Counterexample to C9: `existing_details` is built once, before the
loop, so two incoming details with the same unmatched `offer_type` each
miss the dict and each append a row: a partial update of an offer holding
only the basic tier with two `standard` patches leaves two `standard`
rows — `offer_type` is no longer unique within the offer's detail set. -/
theorem offer_type_uniqueness_violated :
    (update_details [sampleBasic] [patchStandard, patchStandard]).map
        (fun d => d.offer_type)
      = ["basic", "standard", "standard"] ∧
    ¬ ((update_details [sampleBasic] [patchStandard, patchStandard]).map
        (fun d => d.offer_type)).Nodup := by
  constructor
  · rfl
  · decide

/-- C9 (amended): non-partial creation payloads always carry pairwise
distinct offer types, and an update preserves distinctness of the offer's
detail types provided no two incoming details share an `offer_type` absent
from the existing set (two such details would each append a row of that
type, which is the counterexample's violation). -/
theorem offer_type_uniqueness_invariant :
    (∀ ds : List OfferDetailRow,
      validate_details false (fun d => d.offer_type) ds = .ok ds →
      (ds.map (fun d => d.offer_type)).Nodup) ∧
    (∀ (existing : List OfferDetailRow) (incoming : List DetailPatch),
      (existing.map (fun e => e.offer_type)).Nodup →
      ((unmatched_patches existing incoming).map
        (fun d => d.offer_type)).Nodup →
      ((update_details existing incoming).map
        (fun d => d.offer_type)).Nodup) := by
  constructor
  · intro ds h
    by_cases h3 : ds.length = 3
    · by_cases hset : sameTypeSet (ds.map (fun d => d.offer_type)) = true
      · have hperm : (ds.map (fun d => d.offer_type)).Perm required_types :=
          perm_required_of_typeset _ (by simp [h3]) ((sameTypeSet_iff _).mp hset)
        exact hperm.nodup_iff.mpr (by decide)
      · simp [validate_details, h3, hset] at h
    · simp [validate_details, h3] at h
  · intro existing incoming hnd hunodup
    have hchar := update_details_loop_chara existing hnd incoming existing [] rfl
    rw [List.append_nil] at hchar
    rw [update_details, hchar, List.append_nil, List.map_append,
      List.nodup_append]
    refine ⟨?_, ?_, ?_⟩
    · have : (existing.map (merge_matching incoming)).map (fun d => d.offer_type)
          = existing.map (fun e => e.offer_type) := by
        rw [List.map_map]
        exact List.map_congr_left
          (fun e _ => merge_matching_offer_type incoming e)
      rw [this]
      exact hnd
    · have : ((unmatched_patches existing incoming).map new_detail).map
            (fun d => d.offer_type)
          = (unmatched_patches existing incoming).map (fun d => d.offer_type) := by
        rw [List.map_map]
        exact List.map_congr_left (fun d _ => rfl)
      rw [this]
      exact hunodup
    · intro t ht ht2
      have h1 : t ∈ existing.map (fun e => e.offer_type) := by
        obtain ⟨m, hm, hmt⟩ := List.mem_map.mp ht
        obtain ⟨e0, he0, he0m⟩ := List.mem_map.mp hm
        rw [← he0m, merge_matching_offer_type] at hmt
        rw [← hmt]
        exact List.mem_map_of_mem _ he0
      have h2 : t ∉ existing.map (fun e => e.offer_type) := by
        obtain ⟨m, hm, hmt⟩ := List.mem_map.mp ht2
        obtain ⟨p, hp, hpm⟩ := List.mem_map.mp hm
        have hfil := (List.mem_filter.mp hp).2
        have hnmem : p.offer_type ∉ existing.map (fun e => e.offer_type) := by
          simpa using hfil
        rw [← hmt, ← hpm]
        simpa [new_detail] using hnmem
      exact h2 h1

/-- Witness for C9 (amended): the sample creation payload has distinct
types, and the sample single-patch update keeps the types distinct. -/
theorem offer_type_uniqueness_invariant_witness :
    (sampleDetails.map (fun d => d.offer_type)).Nodup ∧
    ((update_details [sampleBasic] [patchStandard]).map
        (fun d => d.offer_type)).Nodup :=
  ⟨offer_type_uniqueness_invariant.1 sampleDetails rfl,
   offer_type_uniqueness_invariant.2 [sampleBasic] [patchStandard]
     (by decide) (by decide)⟩

end Marketplace
